import Mathlib

/-!
Verification of the strip/page partitioning logic of pyECG_graph
(src/pyECG_graph/pyECG.py, function generate_ecg_graph and its helpers).

Modeling conventions:
* A Python ECG sample is a float or None; it is modeled as Option Rat, with
  Option.none standing for the missing marker None.
* Python floats are modeled by exact rationals.  All the arithmetic the claims
  depend on (products, quotients, floor, ceil, round) is exact at the inputs
  used by the theorems and counterexamples below.
* Python int() truncates toward zero; every use in the source applies it to a
  nonnegative quantity, where truncation is the floor.
* Python 2 round() rounds half away from zero; every use in the source applies
  it to a nonnegative quantity, where it is floor(x + 1/2).
* The in-place list mutation of the source (record.insert and record.append on
  the caller's list object) is modeled by the record_padded field: when the
  caller passes an in-memory list, record_padded is the content of that same
  list object after the call.
-/

/-- A sample of the ECG trace: a numeric amplitude (Python float, modeled as a
rational) or the missing marker (Python None). -/
abbrev Sample := Option ℚ

/-- Python int() applied to a nonnegative float: truncation toward zero, which is
the floor.  Every use in pyECG.py applies it to a nonnegative quantity. -/
def pyInt (x : ℚ) : ℕ := ⌊x⌋.toNat

/-- Python math.ceil on a nonnegative float, as used for no_of_strips at
line 172 of pyECG.py. -/
def pyCeil (x : ℚ) : ℕ := ⌈x⌉.toNat

/-- Python 2 int(round(x)) for nonnegative x: round half away from zero is
floor(x + 1/2), and int() of the resulting whole float is exact.  Used at
line 186 of pyECG.py for the record time. -/
def pyRound (x : ℚ) : ℤ := ⌊x + 1 / 2⌋

/-- Natural-number form of int(round(num/den)) for nonnegative integers and a
positive denominator: floor(num/den + 1/2) = (2*num + den) / (2*den).  Used for
the slice boundaries computed by partition at line 110 of pyECG.py. -/
def pyRoundNat (num den : ℕ) : ℕ := (2 * num + den) / (2 * den)

/-- Fuel-driven worker for chunks.  The fuel is an upper bound on the length of
the list, so that the recursion is structural and computable by the kernel. -/
def chunksAux {α : Type} (n : ℕ) : ℕ → List α → List (List α)
  | 0, _ => []
  | _ + 1, [] => []
  | fuel + 1, a :: l => (a :: l).take n :: chunksAux n fuel ((a :: l).drop n)

/-- chunks from pyECG.py lines 75-83: for i in xrange(0, len(l), n) yield
l[i:i+n].  Faithful for n at least 1; Python raises ValueError on step 0. -/
def chunks {α : Type} (l : List α) (n : ℕ) : List (List α) := chunksAux n l.length l

/-- partition from pyECG.py lines 103-110: division = len(lst)/float(n), and the
slices are lst[int(round(division*i)) : int(round(division*(i+1)))] for i in
xrange(n).  Exact rational arithmetic stands in for IEEE floats. -/
def partition {α : Type} (lst : List α) (n : ℕ) : List (List α) :=
  (List.range n).map fun i =>
    (lst.drop (pyRoundNat (lst.length * i) n)).take
      (pyRoundNat (lst.length * (i + 1)) n - pyRoundNat (lst.length * i) n)

/-- The partitioning state computed by generate_ecg_graph, lines 160-187 of
pyECG.py.  record_padded is the content of the record list after the in-place
prepend of 125 None samples (lines 161-162) and the in-place append of the
padding of the extra strips (lines 180-182); when the caller passed an
in-memory list this is the caller's own list object. -/
structure StripPartition where
  record_padded : List Sample
  signals_num : ℕ
  one_strip_length : ℚ
  no_of_strips : ℕ
  extra_strips_needed : ℕ
  record_list : List (List Sample)
  record_time : ℤ

/-- The partitioning logic of generate_ecg_graph (pyECG.py lines 160-187),
parameterized over the two constants of the source, one_strip_time = 8 (line
117) and strips_per_page = 4 (line 138), and over record_frequency (line 146,
default 250).  Line map: record1 is the record after the 125 inserts of lines
161-162; signals_num is line 165; one_strip_length is line 169; no_of_strips is
line 172 (an integer-valued float in the source, its integer value here);
extra_strips_needed and record2 are lines 174-182; record_list is line 184;
record_time is line 186. -/
def stripPartition (one_strip_time : ℚ) (strips_per_page : ℕ)
    (record_frequency : ℚ) (ecg_data : List Sample) : StripPartition :=
  let record1 : List Sample := List.replicate 125 (none : Sample) ++ ecg_data
  let signals_num := record1.length
  let one_strip_length := one_strip_time * record_frequency
  let no_of_strips := pyCeil ((signals_num : ℚ) / one_strip_length)
  let extra_strips_needed :=
    if no_of_strips % strips_per_page = 0 then 0
    else strips_per_page - no_of_strips % strips_per_page
  let record2 := record1 ++
    List.replicate (extra_strips_needed * pyInt one_strip_length) (none : Sample)
  { record_padded := record2
    signals_num := signals_num
    one_strip_length := one_strip_length
    no_of_strips := no_of_strips
    extra_strips_needed := extra_strips_needed
    record_list :=
      partition record2 ((no_of_strips + extra_strips_needed) / strips_per_page)
    record_time := pyRound (((signals_num : ℚ) - 125) / record_frequency) }

/-- padwithnone from pyECG.py lines 85-92, as invoked through numpy.pad at line
227: the input vector of numpy.pad is plot extended by w zeros on the right,
and the callback overwrites the last w entries with None (vector[:0] is a
no-op).  The guard pad_width != (0,0) of line 89 is the test w = 0 here; the
theorems below only instantiate w with whole numbers, where this is exact. -/
def padwithnone (vector : List Sample) (w : ℚ) : List Sample :=
  if w = 0 then vector
  else vector.take (vector.length - pyInt w) ++ List.replicate (pyInt w) (none : Sample)

/-- prepadwithnone from pyECG.py lines 94-101, as invoked through numpy.pad at
line 223 with pad width (0, 125): the callback receives the vector padded on
the right with 125 zeros and overwrites vector[0:125] with None.  numpy ignores
the callback's return value and keeps the mutated padded vector. -/
def prepadwithnone (vector : List Sample) : List Sample :=
  List.replicate (min 125 vector.length) (none : Sample) ++ vector.drop 125

/-- The value-axis data handed to ax.plot for the first strip of a page
(pyECG.py lines 221-224): numpy.pad(plot, (0,125), prepadwithnone), then the
slice data[0 : len(data) - 125]. -/
def firstStripData (plot : List Sample) : List Sample :=
  (prepadwithnone (plot ++ List.replicate 125 (some 0))).take
    ((plot ++ List.replicate 125 (some 0)).length - 125)

/-- The value-axis data handed to ax.plot for every later strip of a page
(pyECG.py lines 225-227): numpy.pad(plot, (0, one_strip_length - len(plot)),
padwithnone), numpy appending pyInt of the pad width zeros before the callback
runs. -/
def otherStripData (one_strip_length : ℚ) (plot : List Sample) : List Sample :=
  padwithnone
    (plot ++ List.replicate (pyInt (one_strip_length - plot.length)) (some 0))
    (one_strip_length - plot.length)

/-- The sequence of value-axis arrays handed to ax.plot for one page (pyECG.py
lines 210-227): the page is cut with chunks(rec, int(one_strip_length)) and the
chunk at index 0 goes through the prepadwithnone branch, every later chunk
through the padwithnone branch. -/
def rendererStrips (one_strip_length : ℚ) (page : List Sample) : List (List Sample) :=
  (chunks page (pyInt one_strip_length)).mapIdx fun num plot =>
    if num = 0 then firstStripData plot else otherStripData one_strip_length plot

/-- The time-axis array built for one strip (pyECG.py lines 229-235): end_time
is start_time + len(data)/record_frequency and nrange keeps the instants
start_time + nu*(1/record_frequency) for nu below len(data) that do not exceed
end_time. -/
def timeAxis (record_frequency start_time : ℚ) (data_len : ℕ) : List ℚ :=
  ((List.range data_len).map (fun nu : ℕ =>
      start_time + (nu : ℚ) * (1 / record_frequency))).filter
    fun x => decide (x ≤ start_time + (data_len : ℚ) / record_frequency)

/-- The condition under which ax.plot at line 249 of pyECG.py raises the
ValueError caught at lines 250-252: the time axis and the value axis do not
have the same first dimension. -/
def axisMismatch (t : List ℚ) (data : List Sample) : Bool :=
  t.length != data.length

/-- The shapes the ecg_data argument of generate_ecg_graph can resolve to.  A
value that is not a Python list is treated as a record path and handed to
get_ecg_data (pyECG.py lines 150-153); for a path, the constructors record
whether the path is empty, unreadable, readable with contents that do not parse
with ast.literal_eval to a list, or readable with contents that parse to a
list of samples. -/
inductive EcgInput where
  | list (l : List Sample)
  | pathEmpty
  | pathUnreadable
  | pathNotAList
  | pathList (l : List Sample)

/-- get_ecg_data from pyECG.py lines 41-73.  Each sys.exit call is modeled as
an error result carrying the exit message; sys.exit aborts the whole run, so no
further step of generate_ecg_graph happens after it.  The list constructor is
never passed to it by generate_ecg_graph (line 150 checks isinstance first). -/
def get_ecg_data : EcgInput → Except String (List Sample)
  | .pathEmpty => .error "ECG GRAPH GENERATOR: Record path not provided"
  | .pathUnreadable => .error "ECG GRAPH GENERATOR: Record path is invalid"
  | .pathNotAList => .error "ECG GRAPH GENERATOR: Record is not a valid list"
  | .pathList l => .ok l
  | .list l => .ok l

/-- Lines 149-153 of pyECG.py: a list is used directly, anything else goes
through get_ecg_data. -/
def resolveRecord : EcgInput → Except String (List Sample)
  | .list l => .ok l
  | e => get_ecg_data e

/-- The meta_data dictionary returned by generate_ecg_graph on success
(pyECG.py lines 298-308), with the display_information dictionary as the list
of its key/value pairs in insertion order. -/
structure MetaData where
  record_frequency : ℚ
  scale : String
  signals_num : ℕ
  record_time : ℤ
  output_files : List (ℕ × String)
  display_information : List (String × String)

/-- The observable outcome of one call of generate_ecg_graph: a returned
meta_data value together with the paths the run wrote files to, a returned None
after a logged error (again with the paths written before the failure), or a
process abort through sys.exit. -/
inductive RunOutcome where
  | ok (meta_data : MetaData) (files_written : List String)
  | errorNone (files_written : List String)
  | aborted (msg : String)

/-- generate_ecg_graph from pyECG.py lines 27-354, restricted to the
book-keeping the claims are about.  The export check of lines 141-143 runs
first; then the record is resolved (lines 149-158); then the partitioning of
lines 160-187 runs; on success the run writes one intermediate svg per page
(lines 262-263), the composed graph_page.svg and temp2.js (lines 330-342), and
the final output file, and returns the meta_data of lines 298-308 (the
output_files entry for every page is set at line 295 to the single final
path).  The caller's annotation mapping (parameter meta, merged at line 318) is
modeled at its default value, the empty mapping.  The curve plotting itself is
delegated to matplotlib; its failure branch is modeled by axisMismatch. -/
def generate_ecg_graph (ecg_data : EcgInput) (output_dir : String)
    (output_file_name : String) (export_to : String)
    (record_frequency : ℚ) : RunOutcome :=
  if export_to ∉ (["pdf", "jpg", "png"] : List String) then .errorNone []
  else
    match resolveRecord ecg_data with
    | .error msg => .aborted msg
    | .ok record =>
      let P := stripPartition 8 4 record_frequency record
      let out_path := output_dir ++ output_file_name ++ "." ++ export_to
      let page_count := P.record_list.length
      let output_files := (List.range page_count).map fun seq => (seq + 1, out_path)
      let page_svgs := (List.range page_count).map fun seq =>
        output_dir ++ toString (seq + 1) ++ ".svg"
      let meta_data : MetaData :=
        { record_frequency := record_frequency
          scale := "25mm/s, 10mm/mV"
          signals_num := P.signals_num
          record_time := P.record_time
          output_files := output_files
          display_information :=
            [("Record frequency", toString record_frequency ++ " Hz"),
             ("Scale", "25mm/s, 10mm/mV"),
             ("No. of signals", toString P.signals_num),
             ("Duration", toString P.record_time ++ " seconds")] }
      .ok meta_data
        (page_svgs ++ [output_dir ++ "graph_page.svg", output_dir ++ "/temp2.js", out_path])

/-- The meta_data result of a run, when there is one. -/
def metaOf : RunOutcome → Option MetaData
  | .ok m _ => some m
  | _ => none

/-- Modelled from the spec: the strip length of spec section 4.1 step 2,
strip_len = round_up(strip_duration_seconds times sampling_rate), as asserted by
claims C2 and C3.  The source instead truncates (int(one_strip_length)). -/
def stripLenSpec (strip_duration record_frequency : ℚ) : ℕ :=
  pyCeil (strip_duration * record_frequency)

/-- Modelled from the spec: the record time of spec section 4.1 step 9,
round((N_original - 125) / sampling_rate) with N_original the sample count
before the 125-sample prepend, as asserted by claim C4. -/
def recordTimeSpec (n_original : ℕ) (record_frequency : ℚ) : ℤ :=
  pyRound (((n_original : ℚ) - 125) / record_frequency)

/-! Basic facts about the Python arithmetic helpers. -/

lemma pyInt_natCast (n : ℕ) : pyInt (n : ℚ) = n := by
  simp [pyInt]

lemma one_le_pyInt (x : ℚ) (h : 1 ≤ x) : 1 ≤ pyInt x := by
  have h1 : (1 : ℤ) ≤ ⌊x⌋ := Int.le_floor.mpr (by exact_mod_cast h)
  simp only [pyInt]
  omega

lemma pyCeil_natCast (n : ℕ) : pyCeil (n : ℚ) = n := by
  simp [pyCeil]

lemma one_le_pyCeil (x : ℚ) (h : 0 < x) : 1 ≤ pyCeil x := by
  have h1 : (0 : ℤ) < ⌈x⌉ := Int.ceil_pos.mpr h
  simp only [pyCeil]
  omega

lemma nat_div_add_div_le (a c m : ℕ) (hm : 0 < m) : a / m + c / m ≤ (a + c) / m := by
  rw [Nat.le_div_iff_mul_le hm]
  have ha := Nat.div_mul_le_self a m
  have hc := Nat.div_mul_le_self c m
  have : (a / m + c / m) * m = a / m * m + c / m * m := by ring
  omega

/-! Facts about chunks. -/

lemma chunksAux_congr {α : Type} (n : ℕ) (hn : 1 ≤ n) :
    ∀ (fuel₁ fuel₂ : ℕ) (l : List α), l.length ≤ fuel₁ → l.length ≤ fuel₂ →
      chunksAux n fuel₁ l = chunksAux n fuel₂ l := by
  intro fuel₁
  induction fuel₁ with
  | zero =>
    intro fuel₂ l h1 _
    have : l = [] := List.eq_nil_of_length_eq_zero (by omega)
    subst this
    cases fuel₂ <;> simp [chunksAux]
  | succ f ih =>
    intro fuel₂ l h1 h2
    cases l with
    | nil => cases fuel₂ <;> simp [chunksAux]
    | cons a t =>
      cases fuel₂ with
      | zero => simp at h2
      | succ f₂ =>
        simp only [List.length_cons] at h1 h2
        simp only [chunksAux]
        rw [ih f₂ ((a :: t).drop n)
          (by simp only [List.length_drop, List.length_cons]; omega)
          (by simp only [List.length_drop, List.length_cons]; omega)]

lemma chunks_eq_cons {α : Type} (l : List α) (n : ℕ) (hn : 1 ≤ n) (hl : l ≠ []) :
    chunks l n = l.take n :: chunks (l.drop n) n := by
  cases l with
  | nil => exact absurd rfl hl
  | cons a t =>
    show chunksAux n (t.length + 1) (a :: t) = _
    simp only [chunksAux]
    rw [chunksAux_congr n hn t.length ((a :: t).drop n).length ((a :: t).drop n)
      (by simp; omega) le_rfl]
    rfl

lemma chunksAux_flatten {α : Type} (n : ℕ) (hn : 1 ≤ n) :
    ∀ (fuel : ℕ) (l : List α), l.length ≤ fuel → (chunksAux n fuel l).flatten = l := by
  intro fuel
  induction fuel with
  | zero =>
    intro l h1
    have : l = [] := List.eq_nil_of_length_eq_zero (by omega)
    subst this
    simp [chunksAux]
  | succ f ih =>
    intro l h1
    cases l with
    | nil => simp [chunksAux]
    | cons a t =>
      simp only [List.length_cons] at h1
      simp only [chunksAux, List.flatten_cons]
      rw [ih ((a :: t).drop n) (by simp only [List.length_drop, List.length_cons]; omega)]
      exact List.take_append_drop n (a :: t)

lemma chunks_flatten {α : Type} (l : List α) (n : ℕ) (hn : 1 ≤ n) :
    (chunks l n).flatten = l :=
  chunksAux_flatten n hn l.length l le_rfl

lemma chunksAux_mem_length {α : Type} (n : ℕ) :
    ∀ (fuel : ℕ) (l : List α), ∀ c ∈ chunksAux n fuel l, c.length ≤ n := by
  intro fuel
  induction fuel with
  | zero => intro l c hc; simp [chunksAux] at hc
  | succ f ih =>
    intro l c hc
    cases l with
    | nil => simp [chunksAux] at hc
    | cons a t =>
      simp only [chunksAux, List.mem_cons] at hc
      rcases hc with h | h
      · subst h; simp
      · exact ih _ c h

lemma chunks_mem_length {α : Type} (l : List α) (n : ℕ) :
    ∀ c ∈ chunks l n, c.length ≤ n :=
  chunksAux_mem_length n l.length l

/-! Facts about partition. -/

lemma pyRoundNat_zero (p : ℕ) (hp : 1 ≤ p) : pyRoundNat 0 p = 0 := by
  simp only [pyRoundNat, Nat.mul_zero, Nat.zero_add]
  exact Nat.div_eq_of_lt (by omega)

lemma pyRoundNat_full (L p : ℕ) (hp : 1 ≤ p) : pyRoundNat (L * p) p = L := by
  unfold pyRoundNat
  have h : 2 * (L * p) + p = p + 2 * p * L := by ring
  rw [h, Nat.add_mul_div_left _ _ (by omega : 0 < 2 * p), Nat.div_eq_of_lt (by omega)]
  omega

lemma pyRoundNat_mono (a b p : ℕ) (h : a ≤ b) : pyRoundNat a p ≤ pyRoundNat b p :=
  Nat.div_le_div_right (by omega)

lemma pyRoundNat_step (L p i : ℕ) (hp : 1 ≤ p) :
    pyRoundNat (L * i) p + L / p ≤ pyRoundNat (L * (i + 1)) p := by
  unfold pyRoundNat
  have h1 : 2 * (L * (i + 1)) + p = (2 * (L * i) + p) + 2 * L := by ring
  have h2 : 2 * L / (2 * p) = L / p := Nat.mul_div_mul_left L p (by omega)
  calc (2 * (L * i) + p) / (2 * p) + L / p
      = (2 * (L * i) + p) / (2 * p) + 2 * L / (2 * p) := by rw [h2]
    _ ≤ ((2 * (L * i) + p) + 2 * L) / (2 * p) := nat_div_add_div_le _ _ _ (by omega)
    _ = (2 * (L * (i + 1)) + p) / (2 * p) := by rw [h1]

lemma partition_flatten {α : Type} (lst : List α) (p : ℕ) (hp : 1 ≤ p) :
    (partition lst p).flatten = lst := by
  have key : ∀ k, k ≤ p →
      ((List.range k).map fun i =>
        (lst.drop (pyRoundNat (lst.length * i) p)).take
          (pyRoundNat (lst.length * (i + 1)) p - pyRoundNat (lst.length * i) p)).flatten
        = lst.take (pyRoundNat (lst.length * k) p) := by
    intro k
    induction k with
    | zero =>
      intro _
      simp [pyRoundNat_zero p hp]
    | succ k ih =>
      intro hk
      rw [List.range_succ, List.map_append, List.flatten_append, ih (by omega)]
      simp only [List.map_cons, List.map_nil, List.flatten_cons, List.flatten_nil,
        List.append_nil]
      rw [← List.take_add]
      congr 1
      have hmono := pyRoundNat_mono (lst.length * k) (lst.length * (k + 1)) p
        (Nat.mul_le_mul_left _ (by omega))
      omega
  have hfin := key p le_rfl
  rw [pyRoundNat_full lst.length p hp, List.take_length] at hfin
  simpa [partition] using hfin

lemma partition_mem_length {α : Type} (lst : List α) (p : ℕ) (hp : 1 ≤ p) :
    ∀ pg ∈ partition lst p, lst.length / p ≤ pg.length := by
  intro pg hpg
  simp only [partition, List.mem_map, List.mem_range] at hpg
  obtain ⟨i, hi, rfl⟩ := hpg
  rw [List.length_take, List.length_drop]
  have h1 := pyRoundNat_step lst.length p i hp
  have h2 : pyRoundNat (lst.length * (i + 1)) p ≤ lst.length := by
    have hm := pyRoundNat_mono (lst.length * (i + 1)) (lst.length * p) p
      (Nat.mul_le_mul_left _ (by omega))
    rwa [pyRoundNat_full lst.length p hp] at hm
  apply le_min <;> omega

lemma flatten_chunks_map {α : Type} (n : ℕ) (hn : 1 ≤ n) (pages : List (List α)) :
    ((pages.map fun pg => chunks pg n).flatten).flatten = pages.flatten := by
  induction pages with
  | nil => simp
  | cons pg rest ih =>
    simp only [List.map_cons, List.flatten_cons, List.flatten_append, ih,
      chunks_flatten pg n hn]

/-! Projection lemmas for stripPartition, unfolding the let chain of the
definition. -/

lemma stripPartition_signals_num (t : ℚ) (spp : ℕ) (f : ℚ) (e : List Sample) :
    (stripPartition t spp f e).signals_num = 125 + e.length := by
  show (List.replicate 125 (none : Sample) ++ e).length = 125 + e.length
  rw [List.length_append, List.length_replicate]

lemma stripPartition_one_strip_length (t : ℚ) (spp : ℕ) (f : ℚ) (e : List Sample) :
    (stripPartition t spp f e).one_strip_length = t * f := rfl

lemma stripPartition_no_of_strips (t : ℚ) (spp : ℕ) (f : ℚ) (e : List Sample) :
    (stripPartition t spp f e).no_of_strips
      = pyCeil (((stripPartition t spp f e).signals_num : ℚ) / (t * f)) := rfl

lemma stripPartition_extra (t : ℚ) (spp : ℕ) (f : ℚ) (e : List Sample) :
    (stripPartition t spp f e).extra_strips_needed
      = if (stripPartition t spp f e).no_of_strips % spp = 0 then 0
        else spp - (stripPartition t spp f e).no_of_strips % spp := rfl

lemma stripPartition_record_padded (t : ℚ) (spp : ℕ) (f : ℚ) (e : List Sample) :
    (stripPartition t spp f e).record_padded
      = (List.replicate 125 (none : Sample) ++ e) ++
        List.replicate ((stripPartition t spp f e).extra_strips_needed * pyInt (t * f))
          (none : Sample) := rfl

lemma stripPartition_record_list (t : ℚ) (spp : ℕ) (f : ℚ) (e : List Sample) :
    (stripPartition t spp f e).record_list
      = partition (stripPartition t spp f e).record_padded
          (((stripPartition t spp f e).no_of_strips +
            (stripPartition t spp f e).extra_strips_needed) / spp) := rfl

lemma stripPartition_record_time (t : ℚ) (spp : ℕ) (f : ℚ) (e : List Sample) :
    (stripPartition t spp f e).record_time
      = pyRound ((((stripPartition t spp f e).signals_num : ℚ) - 125) / f) := rfl

/-! Counting facts for the partitioning at the source's strips_per_page = 4. -/

lemma one_le_no_of_strips (t : ℚ) (spp : ℕ) (f : ℚ) (e : List Sample)
    (htf : 0 < t * f) : 1 ≤ (stripPartition t spp f e).no_of_strips := by
  rw [stripPartition_no_of_strips]
  apply one_le_pyCeil
  apply div_pos _ htf
  rw [stripPartition_signals_num]
  have : (0 : ℚ) < ((125 + e.length : ℕ) : ℚ) := by
    exact_mod_cast Nat.succ_le_of_lt (by omega)
  simpa using this

lemma total_strips_ge (S : ℕ) (hS : 1 ≤ S) :
    4 ≤ S + (if S % 4 = 0 then 0 else 4 - S % 4) := by
  split_ifs <;> omega

lemma total_strips_mod (S : ℕ) :
    (S + (if S % 4 = 0 then 0 else 4 - S % 4)) % 4 = 0 := by
  split_ifs <;> omega

lemma one_le_page_count (t : ℚ) (f : ℚ) (e : List Sample) (htf : 0 < t * f) :
    1 ≤ ((stripPartition t 4 f e).no_of_strips +
      (stripPartition t 4 f e).extra_strips_needed) / 4 := by
  have hS := one_le_no_of_strips t 4 f e htf
  rw [stripPartition_extra]
  have := total_strips_ge (stripPartition t 4 f e).no_of_strips hS
  omega

/-- C1: for every non-empty input trace, concatenating every strip of every
page, in order, yields exactly the padded trace: 125 leading missing markers,
then the caller's samples in their original order, then the trailing missing
markers appended for the padding strips.  The strips of a page are the chunks
of length int(one_strip_length) cut at line 211 of pyECG.py, and the pages are
the slices produced by partition at line 184.  The hypothesis asks for
one_strip_length at least 1 (Python would raise on a zero chunk step). -/
theorem claim_C1_strips_concat (freq : ℚ) (ecg : List Sample)
    (hne : ecg ≠ []) (hf : (1 : ℚ) ≤ 8 * freq) :
    ((((stripPartition 8 4 freq ecg).record_list).map fun pg =>
        chunks pg (pyInt (stripPartition 8 4 freq ecg).one_strip_length)).flatten).flatten
      = List.replicate 125 (none : Sample) ++ ecg ++
        List.replicate ((stripPartition 8 4 freq ecg).extra_strips_needed *
          pyInt (stripPartition 8 4 freq ecg).one_strip_length) (none : Sample) := by
  have htf : (0 : ℚ) < 8 * freq := lt_of_lt_of_le one_pos hf
  have hn : 1 ≤ pyInt ((8 : ℚ) * freq) := one_le_pyInt _ hf
  rw [stripPartition_one_strip_length, stripPartition_record_list]
  rw [flatten_chunks_map _ hn]
  rw [partition_flatten _ _ (one_le_page_count 8 freq ecg htf)]
  rw [stripPartition_record_padded, List.append_assoc]

/-- C2 (amended): the number of padding strips equals
(strips_per_page - no_of_strips mod strips_per_page) mod strips_per_page, where
no_of_strips is the raw strip count the source computes at line 172,
ceil(N / (one_strip_time * record_frequency)) with the exact unrounded product
as divisor; hence the total strip count is a multiple of strips_per_page = 4;
and when the post-prepend length N is an exact whole multiple of
strips_per_page * (one_strip_time * record_frequency), zero padding strips are
added. -/
theorem claim_C2_pad_strips (freq : ℚ) (ecg : List Sample) (hf : 0 < freq) :
    (stripPartition 8 4 freq ecg).extra_strips_needed
        = (4 - (stripPartition 8 4 freq ecg).no_of_strips % 4) % 4
      ∧ ((stripPartition 8 4 freq ecg).no_of_strips +
          (stripPartition 8 4 freq ecg).extra_strips_needed) % 4 = 0
      ∧ ∀ m : ℕ, ((stripPartition 8 4 freq ecg).signals_num : ℚ) = m * (4 * (8 * freq)) →
          (stripPartition 8 4 freq ecg).extra_strips_needed = 0 := by
  refine ⟨?_, ?_, ?_⟩
  · rw [stripPartition_extra]
    split_ifs with h
    · omega
    · omega
  · rw [stripPartition_extra]
    exact total_strips_mod _
  · intro m hm
    have hS : (stripPartition 8 4 freq ecg).no_of_strips = 4 * m := by
      rw [stripPartition_no_of_strips, hm]
      have h8 : (8 : ℚ) * freq ≠ 0 := by positivity
      have harg : (m : ℚ) * (4 * (8 * freq)) / (8 * freq) = ((4 * m : ℕ) : ℚ) := by
        push_cast
        field_simp
        ring
      rw [harg, pyCeil_natCast]
    rw [stripPartition_extra, hS]
    simp [Nat.mul_mod_right]

/-- C2 counterexample: at record_frequency 33/16 (one_strip_length 16.5) and an
11-sample trace, the post-prepend length 136 is an exact multiple
2 * (4 * 17) of strips_per_page times the spec's rounded-up strip length, yet
the source appends 3 padding strips, not 0: no_of_strips is
ceil(136 / 16.5) = 9, so extra_strips_needed = 4 - 9 mod 4 = 3. -/
theorem claim_C2_counterexample :
    (stripPartition 8 4 (33/16) (List.replicate 11 (some 0))).signals_num
        = 2 * (4 * stripLenSpec 8 (33/16))
      ∧ (stripPartition 8 4 (33/16) (List.replicate 11 (some 0))).extra_strips_needed
          ≠ 0 := by
  have hsig : (stripPartition 8 4 (33/16 : ℚ) (List.replicate 11 (some 0))).signals_num
      = 136 := by
    rw [stripPartition_signals_num, List.length_replicate]
  constructor
  · rw [hsig]
    have hlen : stripLenSpec 8 (33/16) = 17 := by
      unfold stripLenSpec pyCeil
      rw [show ((8 : ℚ) * (33/16)) = 33/2 by norm_num]
      rw [show ⌈(33/2 : ℚ)⌉ = (17 : ℤ) from by rw [Int.ceil_eq_iff]; constructor <;> norm_num]
      rfl
    rw [hlen]
  · have hS : (stripPartition 8 4 (33/16 : ℚ) (List.replicate 11 (some 0))).no_of_strips
        = 9 := by
      rw [stripPartition_no_of_strips, hsig]
      unfold pyCeil
      rw [show ((136 : ℕ) : ℚ) / ((8 : ℚ) * (33/16)) = 272/33 by norm_num]
      rw [show ⌈(272/33 : ℚ)⌉ = (9 : ℤ) from by rw [Int.ceil_eq_iff]; constructor <;> norm_num]
      rfl
    rw [stripPartition_extra, hS]
    norm_num

/-- C4 (amended): the record time the source computes at line 186 equals
round(N_original / record_frequency): signals_num already includes the 125
prepended markers, so subtracting 125 recovers the caller's sample count, not
that count lowered by a further 125 as the spec formula states.  The value is
invariant under the strip duration and the strips-per-page count. -/
theorem claim_C4_record_time (t : ℚ) (spp : ℕ) (freq : ℚ) (ecg : List Sample)
    (hf : 0 < freq) :
    (stripPartition t spp freq ecg).record_time = pyRound ((ecg.length : ℚ) / freq)
      ∧ ∀ (t' : ℚ) (spp' : ℕ),
          (stripPartition t spp freq ecg).record_time
            = (stripPartition t' spp' freq ecg).record_time := by
  have key : ∀ (a : ℚ) (b : ℕ), (stripPartition a b freq ecg).record_time
      = pyRound ((ecg.length : ℚ) / freq) := by
    intro a b
    rw [stripPartition_record_time, stripPartition_signals_num]
    congr 2
    push_cast
    ring
  exact ⟨key t spp, fun t' spp' => by rw [key t spp, key t' spp']⟩

/-- C4 counterexample: for 1200 caller samples at 250 Hz the source returns
round(1200/250) = round(4.8) = 5, while the spec formula
round((1200 - 125)/250) = round(4.3) gives 4. -/
theorem claim_C4_counterexample :
    (stripPartition 8 4 250 (List.replicate 1200 (some 0))).record_time
      ≠ recordTimeSpec 1200 250 := by
  have h1 : (stripPartition 8 4 (250 : ℚ) (List.replicate 1200 (some 0))).record_time
      = 5 := by
    rw [stripPartition_record_time, stripPartition_signals_num, List.length_replicate]
    unfold pyRound
    rw [show (((125 + 1200 : ℕ) : ℚ) - 125) / 250 + 1 / 2 = 53/10 by push_cast; norm_num]
    rw [show ⌊(53/10 : ℚ)⌋ = (5 : ℤ) from by rw [Int.floor_eq_iff]; constructor <;> norm_num]
  have h2 : recordTimeSpec 1200 250 = 4 := by
    unfold recordTimeSpec pyRound
    rw [show (((1200 : ℕ) : ℚ) - 125) / 250 + 1 / 2 = 24/5 by push_cast; norm_num]
    rw [show ⌊(24/5 : ℚ)⌋ = (4 : ℤ) from by rw [Int.floor_eq_iff]; constructor <;> norm_num]
  rw [h1, h2]
  decide

/-- C6 (amended): the run mutates the caller's in-memory list in place: after
the call the list holds 125 leading missing markers, then the caller's samples
unchanged and in their original order, then the appended padding markers; in
particular the list is never equal to its original value. -/
theorem claim_C6_mutation (t : ℚ) (spp : ℕ) (f : ℚ) (ecg : List Sample) :
    (stripPartition t spp f ecg).record_padded
        = List.replicate 125 (none : Sample) ++ ecg ++
          List.replicate ((stripPartition t spp f ecg).extra_strips_needed *
            pyInt (t * f)) (none : Sample)
      ∧ (stripPartition t spp f ecg).record_padded ≠ ecg := by
  constructor
  · rw [stripPartition_record_padded, List.append_assoc]
  · intro h
    have hlen := congrArg List.length h
    rw [stripPartition_record_padded] at hlen
    simp only [List.length_append, List.length_replicate] at hlen
    omega

/-- C6 counterexample: a one-sample in-memory trace does not survive the call
unchanged; the same list object afterwards starts with 125 missing markers. -/
theorem claim_C6_counterexample :
    (stripPartition 8 4 250 [some 1]).record_padded ≠ [some 1] := by
  intro h
  have hlen := congrArg List.length h
  rw [stripPartition_record_padded] at hlen
  simp only [List.length_append, List.length_replicate, List.length_cons,
    List.length_nil] at hlen
  omega

/-- C7: for every export format outside pdf, jpg, png the run stops at the
check of lines 141-143 of pyECG.py: it returns None (no metadata result) before
resolving the input or writing any file. -/
theorem claim_C7_unsupported_export (e : EcgInput) (dir nm ext : String) (f : ℚ)
    (hext : ext ∉ (["pdf", "jpg", "png"] : List String)) :
    generate_ecg_graph e dir nm ext f = .errorNone [] := by
  unfold generate_ecg_graph
  rw [if_pos hext]

/-- Witness for C7 at the spec's scenario, export format svg. -/
theorem claim_C7_witness :
    "svg" ∉ (["pdf", "jpg", "png"] : List String)
      ∧ generate_ecg_graph (.list [some 1]) "out/" "graph" "svg" 250
          = .errorNone [] :=
  ⟨by decide, claim_C7_unsupported_export _ _ _ _ _ (by decide)⟩

/-- C8: whenever the input does not resolve to a list, the run aborts through
sys.exit with the corresponding message (pyECG.py lines 49-70) and produces no
result and no output; this covers a missing path, an unreadable path, and file
contents that do not parse with ast.literal_eval to a list. -/
theorem claim_C8_invalid_input (e : EcgInput) (dir nm ext : String) (f : ℚ)
    (msg : String) (hext : ext ∈ (["pdf", "jpg", "png"] : List String))
    (hres : resolveRecord e = .error msg) :
    generate_ecg_graph e dir nm ext f = .aborted msg := by
  unfold generate_ecg_graph
  rw [if_neg (not_not_intro hext), hres]

/-- Witness for C8 at the spec's scenario: a file whose contents are not a
valid list literal, exported to pdf. -/
theorem claim_C8_witness :
    resolveRecord .pathNotAList
        = .error "ECG GRAPH GENERATOR: Record is not a valid list"
      ∧ generate_ecg_graph .pathNotAList "out/" "graph" "pdf" 250
          = .aborted "ECG GRAPH GENERATOR: Record is not a valid list" :=
  ⟨rfl, claim_C8_invalid_input _ _ _ _ _ _ (by decide) rfl⟩

/-- Two string concatenations with different suffixes of equal length differ. -/
lemma append_ne_append_of_ne_suffix (a b c d : String)
    (hlen : c.data.length = d.data.length) (hne : c ≠ d) : a ++ c ≠ b ++ d := by
  intro h
  apply hne
  have hdata := congrArg String.data h
  rw [String.data_append, String.data_append] at hdata
  have hrev := congrArg List.reverse hdata
  rw [List.reverse_append, List.reverse_append] at hrev
  have e1 : (c.data.reverse ++ a.data.reverse).take c.data.reverse.length
      = c.data.reverse := List.take_left _ _
  have e2 : (d.data.reverse ++ b.data.reverse).take d.data.reverse.length
      = d.data.reverse := List.take_left _ _
  have hlen' : c.data.reverse.length = d.data.reverse.length := by
    rw [List.length_reverse, List.length_reverse, hlen]
  have : c.data.reverse = d.data.reverse := by
    rw [← e1, ← e2, hrev, hlen']
  apply String.ext
  have := congrArg List.reverse this
  rwa [List.reverse_reverse, List.reverse_reverse] at this

/-- The full successful run of generate_ecg_graph on an in-memory list with a
supported export format, spelled out. -/
lemma generate_eq_ok (l : List Sample) (dir nm ext : String) (f : ℚ)
    (hext : ext ∈ (["pdf", "jpg", "png"] : List String)) :
    generate_ecg_graph (.list l) dir nm ext f
      = .ok
          { record_frequency := f
            scale := "25mm/s, 10mm/mV"
            signals_num := (stripPartition 8 4 f l).signals_num
            record_time := (stripPartition 8 4 f l).record_time
            output_files := (List.range (stripPartition 8 4 f l).record_list.length).map
              fun seq => (seq + 1, dir ++ nm ++ "." ++ ext)
            display_information :=
              [("Record frequency", toString f ++ " Hz"),
               ("Scale", "25mm/s, 10mm/mV"),
               ("No. of signals", toString (stripPartition 8 4 f l).signals_num),
               ("Duration", toString (stripPartition 8 4 f l).record_time ++ " seconds")] }
          (((List.range (stripPartition 8 4 f l).record_list.length).map fun seq =>
              dir ++ toString (seq + 1) ++ ".svg") ++
            [dir ++ "graph_page.svg", dir ++ "/temp2.js", dir ++ nm ++ "." ++ ext]) := by
  unfold generate_ecg_graph
  rw [if_neg (not_not_intro hext)]
  rfl

/-- C5 (amended): the metadata reported on success carries
signals_num = N_original + 125, the caller's sample count plus the 125
synthetic leading markers, both in the signals_num field and in the
display label, because line 165 of pyECG.py measures the record after the
prepend of lines 161-162. -/
theorem claim_C5_signal_count (l : List Sample) (dir nm ext : String) (f : ℚ)
    (hext : ext ∈ (["pdf", "jpg", "png"] : List String))
    (hL : ∃ L : ℕ, (8 : ℚ) * f = (L : ℚ) ∧ 1 ≤ L) :
    ∃ meta files, generate_ecg_graph (.list l) dir nm ext f = .ok meta files
      ∧ meta.signals_num = l.length + 125
      ∧ ("No. of signals", toString (l.length + 125)) ∈ meta.display_information := by
  refine ⟨_, _, generate_eq_ok l dir nm ext f hext, ?_, ?_⟩
  · dsimp only
    rw [stripPartition_signals_num]
    omega
  · dsimp only
    rw [Nat.add_comm l.length 125]
    simp [stripPartition_signals_num]

/-- C5 counterexample: for the one-sample trace the metadata reports 126
signals, not the caller's sample count 1. -/
theorem claim_C5_counterexample :
    (metaOf (generate_ecg_graph (.list [some 1]) "out/" "graph" "pdf" 250)).map
        MetaData.signals_num = some 126
      ∧ (metaOf (generate_ecg_graph (.list [some 1]) "out/" "graph" "pdf" 250)).map
          MetaData.signals_num ≠ some 1 := by
  rw [generate_eq_ok [some 1] "out/" "graph" "pdf" 250 (by decide)]
  simp [metaOf, stripPartition_signals_num]

/-- C10: in the metadata of a successful run, output_files assigns every page
index 1..page_count the single final path output_dir ++ output_file_name ++
"." ++ export_to (line 295 of pyECG.py stores the same string for every page),
and no per-page intermediate svg path output_dir ++ page_number ++ ".svg" ever
appears among its values, whatever the number of pages, since the extension of
a supported export format never ends in svg. -/
theorem claim_C10_output_files (l : List Sample) (dir nm ext : String) (f : ℚ)
    (hext : ext ∈ (["pdf", "jpg", "png"] : List String))
    (hL : ∃ L : ℕ, (8 : ℚ) * f = (L : ℚ) ∧ 1 ≤ L) :
    ∃ meta files, generate_ecg_graph (.list l) dir nm ext f = .ok meta files
      ∧ (∀ kv ∈ meta.output_files, kv.2 = dir ++ nm ++ "." ++ ext)
      ∧ meta.output_files.map Prod.fst
          = (List.range (stripPartition 8 4 f l).record_list.length).map (fun i => i + 1)
      ∧ ∀ j : ℕ, (dir ++ toString j ++ ".svg") ∉ meta.output_files.map Prod.snd := by
  refine ⟨_, _, generate_eq_ok l dir nm ext f hext, ?_, ?_, ?_⟩
  · intro kv hkv
    simp only [List.mem_map, List.mem_range] at hkv
    obtain ⟨i, hi, rfl⟩ := hkv
    rfl
  · rw [List.map_map]
    rfl
  · intro j hj
    rw [List.map_map] at hj
    simp only [List.mem_map, List.mem_range, Function.comp_apply] at hj
    obtain ⟨i, _, hval⟩ := hj
    have hassoc : dir ++ nm ++ "." ++ ext = (dir ++ nm) ++ ("." ++ ext) :=
      String.append_assoc _ _ _
    have hne : (dir ++ nm) ++ ("." ++ ext) ≠ (dir ++ toString j) ++ ".svg" := by
      simp only [List.mem_cons, List.mem_singleton, List.not_mem_nil, or_false] at hext
      rcases hext with rfl | rfl | rfl
      · exact append_ne_append_of_ne_suffix _ _ _ _ (by decide) (by decide)
      · exact append_ne_append_of_ne_suffix _ _ _ _ (by decide) (by decide)
      · exact append_ne_append_of_ne_suffix _ _ _ _ (by decide) (by decide)
    exact hne (hassoc ▸ hval)

/-- C9: for every strip, the time axis built at lines 233-235 of pyECG.py has
exactly the length of the strip's value-axis data: the comprehension filter
keeps every instant, because start + nu/frequency never exceeds
end_time = start + len/frequency for nu below len.  Hence, for valid numeric
input, the ValueError branch around ax.plot (lines 248-252) is unreachable. -/
theorem claim_C9_axis_lengths (freq : ℚ) (hf : 0 < freq) :
    ∀ (data : List Sample) (start_time : ℚ),
      (timeAxis freq start_time data.length).length = data.length
        ∧ axisMismatch (timeAxis freq start_time data.length) data = false := by
  have key : ∀ (L : ℕ) (start : ℚ), (timeAxis freq start L).length = L := by
    intro L start
    unfold timeAxis
    have hall : ∀ x ∈ (List.range L).map (fun nu : ℕ => start + (nu : ℚ) * (1 / freq)),
        decide (x ≤ start + (L : ℚ) / freq) = true := by
      intro x hx
      obtain ⟨nu, hnu, rfl⟩ := List.mem_map.mp hx
      rw [List.mem_range] at hnu
      simp only [decide_eq_true_eq]
      have hc : (nu : ℚ) ≤ (L : ℚ) := by exact_mod_cast Nat.le_of_lt hnu
      have h1f : (0 : ℚ) ≤ 1 / freq := by positivity
      have h2 : (nu : ℚ) * (1 / freq) ≤ (L : ℚ) / freq :=
        calc (nu : ℚ) * (1 / freq) ≤ (L : ℚ) * (1 / freq) :=
              mul_le_mul_of_nonneg_right hc h1f
          _ = (L : ℚ) / freq := mul_one_div _ _
      linarith
    rw [List.filter_eq_self.mpr hall, List.length_map, List.length_range]
  intro data start
  refine ⟨key _ _, ?_⟩
  simp [axisMismatch, key]

/-- Witness for C9 at the default frequency and a one-sample strip. -/
theorem claim_C9_witness :
    (0 : ℚ) < 250
      ∧ ((timeAxis 250 0 ([some 1] : List Sample).length).length
            = ([some 1] : List Sample).length
        ∧ axisMismatch (timeAxis 250 0 ([some 1] : List Sample).length) [some 1]
            = false) :=
  ⟨by norm_num, claim_C9_axis_lengths 250 (by norm_num) [some 1] 0⟩

/-! Lengths of the value-axis arrays handed to the renderer. -/

lemma firstStripData_length (plot : List Sample) :
    (firstStripData plot).length = plot.length := by
  simp only [firstStripData, prepadwithnone, List.length_take, List.length_append,
    List.length_drop, List.length_replicate]
  omega

lemma pyInt_sub_natCast (L c : ℕ) (hc : c ≤ L) :
    pyInt ((L : ℚ) - (c : ℚ)) = L - c := by
  rw [show (L : ℚ) - (c : ℚ) = ((L - c : ℕ) : ℚ) from by push_cast [hc]; ring]
  exact pyInt_natCast _

lemma otherStripData_eq (L : ℕ) (plot : List Sample) (hlen : plot.length ≤ L) :
    otherStripData (L : ℚ) plot
      = plot ++ List.replicate (L - plot.length) (none : Sample) := by
  unfold otherStripData padwithnone
  have hw := pyInt_sub_natCast L plot.length hlen
  by_cases h : (L : ℚ) - (plot.length : ℚ) = 0
  · have hL : plot.length = L := by
      have := sub_eq_zero.mp h
      exact_mod_cast this.symm
    simp [h, hw, hL, pyInt]
  · rw [if_neg h, hw]
    have hvlen : (plot ++ List.replicate (L - plot.length) (some 0)).length = L := by
      simp only [List.length_append, List.length_replicate]
      omega
    rw [hvlen]
    congr 1
    rw [show L - (L - plot.length) = plot.length from by omega]
    exact List.take_left _ _

lemma otherStripData_length (L : ℕ) (plot : List Sample) (hlen : plot.length ≤ L) :
    (otherStripData (L : ℚ) plot).length = L := by
  rw [otherStripData_eq L plot hlen]
  simp only [List.length_append, List.length_replicate]
  omega

lemma chunks_getElem_zero {α : Type} (l : List α) (n : ℕ) (hn : 1 ≤ n) (hl : l ≠ []) :
    (chunks l n)[0]? = some (l.take n) := by
  rw [chunks_eq_cons l n hn hl]
  simp

/-- Pages cut by partition are at least as long as the floor of the average. -/
lemma partition_page_min {α : Type} (lst : List α) (p L : ℕ) (hp : 1 ≤ p)
    (hlen : p * L ≤ lst.length) : ∀ pg ∈ partition lst p, L ≤ pg.length := by
  intro pg hpg
  have h1 := partition_mem_length lst p hp pg hpg
  have h2 : L ≤ lst.length / p := (Nat.le_div_iff_mul_le (by omega)).mpr
    (by rw [Nat.mul_comm]; exact hlen)
  omega

/-- Counting core: with S raw strips, E padding strips, a trace longer than
(S - 1) * L, and S + E a positive multiple of 4, every fourth of the padded
trace holds at least L samples. -/
lemma strips_mul_le (signalsLen L S E : ℕ) (hS : 1 ≤ S) (hT4 : 4 ≤ S + E)
    (hTmod : (S + E) % 4 = 0) (hceil : (S - 1) * L < signalsLen) :
    ((S + E) / 4) * L ≤ signalsLen + E * L := by
  have h4p : 4 * ((S + E) / 4) = S + E := by omega
  have hmul : ((S + E) / 4) * L ≤ (4 * ((S + E) / 4) - 1) * L :=
    Nat.mul_le_mul_right L (by omega)
  have hexp : (4 * ((S + E) / 4) - 1) * L = (S - 1) * L + E * L := by
    rw [show 4 * ((S + E) / 4) - 1 = (S - 1) + E from by omega, Nat.add_mul]
  omega

/-- Every page produced by the partitioning holds at least one full strip of
samples, whenever one_strip_length is the whole number L. -/
lemma record_list_page_length (freq : ℚ) (ecg : List Sample) (L : ℕ)
    (hL : (8 : ℚ) * freq = (L : ℚ)) (hL1 : 1 ≤ L) :
    ∀ pg ∈ (stripPartition 8 4 freq ecg).record_list, L ≤ pg.length := by
  intro pg hpg
  have htf : (0 : ℚ) < 8 * freq := by
    rw [hL]
    exact_mod_cast Nat.lt_of_lt_of_le Nat.zero_lt_one hL1
  have hS : 1 ≤ (stripPartition 8 4 freq ecg).no_of_strips :=
    one_le_no_of_strips 8 4 freq ecg htf
  have hT4 : 4 ≤ (stripPartition 8 4 freq ecg).no_of_strips +
      (stripPartition 8 4 freq ecg).extra_strips_needed := by
    rw [stripPartition_extra]
    exact total_strips_ge _ hS
  have hTmod : ((stripPartition 8 4 freq ecg).no_of_strips +
      (stripPartition 8 4 freq ecg).extra_strips_needed) % 4 = 0 := by
    rw [stripPartition_extra]
    exact total_strips_mod _
  have hpyL : pyInt ((8 : ℚ) * freq) = L := by
    rw [hL]
    exact pyInt_natCast L
  have hN2 : (stripPartition 8 4 freq ecg).record_padded.length
      = (125 + ecg.length) +
        (stripPartition 8 4 freq ecg).extra_strips_needed * L := by
    rw [stripPartition_record_padded, hpyL]
    simp only [List.length_append, List.length_replicate]
  have hceil : ((stripPartition 8 4 freq ecg).no_of_strips - 1) * L
      < 125 + ecg.length := by
    have hx : (stripPartition 8 4 freq ecg).no_of_strips
        = pyCeil (((125 + ecg.length : ℕ) : ℚ) / (L : ℚ)) := by
      rw [stripPartition_no_of_strips, stripPartition_signals_num, ← hL]
    have hposL : (0 : ℚ) < (L : ℚ) := by exact_mod_cast hL1
    set x : ℚ := ((125 + ecg.length : ℕ) : ℚ) / (L : ℚ) with hxdef
    have hxpos : 0 < x := by
      apply div_pos _ hposL
      have : (0 : ℚ) < ((125 + ecg.length : ℕ) : ℚ) := by exact_mod_cast (by omega : 0 < 125 + ecg.length)
      exact this
    have hceilZ : (0 : ℤ) < ⌈x⌉ := Int.ceil_pos.mpr hxpos
    have hSZ : ((stripPartition 8 4 freq ecg).no_of_strips : ℤ) = ⌈x⌉ := by
      rw [hx]
      unfold pyCeil
      omega
    have h1 : (⌈x⌉ : ℚ) < x + 1 := Int.ceil_lt_add_one x
    have h2 : ((stripPartition 8 4 freq ecg).no_of_strips : ℚ) = (⌈x⌉ : ℚ) := by
      exact_mod_cast hSZ
    have h3 : ((stripPartition 8 4 freq ecg).no_of_strips : ℚ) - 1 < x := by linarith
    have hlt : (((stripPartition 8 4 freq ecg).no_of_strips : ℚ) - 1) * (L : ℚ)
        < ((125 + ecg.length : ℕ) : ℚ) :=
      calc (((stripPartition 8 4 freq ecg).no_of_strips : ℚ) - 1) * (L : ℚ)
          < x * (L : ℚ) := mul_lt_mul_of_pos_right h3 hposL
        _ = ((125 + ecg.length : ℕ) : ℚ) := by
            rw [hxdef, div_mul_cancel₀]
            exact ne_of_gt hposL
    have hcast : ((((stripPartition 8 4 freq ecg).no_of_strips - 1) * L : ℕ) : ℚ)
        = (((stripPartition 8 4 freq ecg).no_of_strips : ℚ) - 1) * (L : ℚ) := by
      push_cast [hS]
      ring
    rw [← hcast] at hlt
    exact_mod_cast hlt
  have hp : 1 ≤ ((stripPartition 8 4 freq ecg).no_of_strips +
      (stripPartition 8 4 freq ecg).extra_strips_needed) / 4 := by omega
  rw [stripPartition_record_list] at hpg
  refine partition_page_min _ _ L hp ?_ pg hpg
  rw [hN2]
  exact strips_mul_le _ _ _ _ hS hT4 hTmod hceil

/-- C3 (amended): provided one_strip_time * record_frequency is the whole
number L (as at the defaults 8 s and 250 Hz, where L = 2000), every value-axis
array handed to ax.plot contains exactly L samples, and every strip other than
the first of its page is its chunk right-padded with missing markers to length
L.  The source truncates the strip length with int() rather than rounding up,
so outside whole-number products L is int(duration * rate), not the round-up
the spec states. -/
theorem claim_C3_strip_lengths (freq : ℚ) (ecg : List Sample) (L : ℕ)
    (hL : (8 : ℚ) * freq = (L : ℚ)) (hL1 : 1 ≤ L) :
    ∀ pg ∈ (stripPartition 8 4 freq ecg).record_list,
      (∀ s ∈ rendererStrips (stripPartition 8 4 freq ecg).one_strip_length pg,
          s.length = L)
        ∧ (∀ (i : ℕ) (c : List Sample), 0 < i →
            (chunks pg L)[i]? = some c →
            (rendererStrips (stripPartition 8 4 freq ecg).one_strip_length pg)[i]?
              = some (c ++ List.replicate (L - c.length) (none : Sample))) := by
  intro pg hpg
  have hpl : L ≤ pg.length := record_list_page_length freq ecg L hL hL1 pg hpg
  have hosl : (stripPartition 8 4 freq ecg).one_strip_length = (L : ℚ) := by
    rw [stripPartition_one_strip_length, hL]
  have hpyL : pyInt ((L : ℚ)) = L := pyInt_natCast L
  rw [hosl]
  unfold rendererStrips
  rw [hpyL]
  constructor
  · intro s hs
    obtain ⟨i, hi, heq⟩ := List.mem_iff_getElem.mp hs
    have heq2 : (List.mapIdx (fun num plot =>
        if num = 0 then firstStripData plot else otherStripData (L : ℚ) plot)
          (chunks pg L))[i]? = some s := by
      rw [List.getElem?_eq_getElem hi, heq]
    rw [List.getElem?_mapIdx] at heq2
    cases hc : (chunks pg L)[i]? with
    | none => rw [hc] at heq2; simp at heq2
    | some c =>
      rw [hc, Option.map_some'] at heq2
      have heq3 : (if i = 0 then firstStripData c else otherStripData (L : ℚ) c) = s :=
        Option.some.inj heq2
      rcases Nat.eq_zero_or_pos i with hz | hposi
      · subst hz
        rw [if_pos rfl] at heq3
        have hne : pg ≠ [] := by
          intro hemp
          rw [hemp] at hpl
          simp at hpl
          omega
        have hc0 : c = pg.take L := by
          have := chunks_getElem_zero pg L hL1 hne
          rw [hc] at this
          exact Option.some.inj this
        rw [← heq3, firstStripData_length, hc0, List.length_take]
        omega
      · rw [if_neg (by omega)] at heq3
        have hcl : c.length ≤ L :=
          chunks_mem_length pg L c (List.getElem?_mem hc)
        rw [← heq3]
        exact otherStripData_length L c hcl
  · intro i c hposi hci
    rw [List.getElem?_mapIdx, hci, Option.map_some']
    rw [if_neg (by omega : ¬ i = 0)]
    rw [otherStripData_eq L c (chunks_mem_length pg L c (List.getElem?_mem hci))]

/-- C3 counterexample: at record_frequency 33/16 the product
one_strip_time * record_frequency is 16.5, which the source truncates to a
chunk length of 16; the very first value-axis array handed to ax.plot holds 16
samples, not the 17 the round-up formula of the spec gives. -/
theorem claim_C3_counterexample :
    (((stripPartition 8 4 (33/16) [some 1]).record_list[0]?).map fun pg =>
        ((rendererStrips (stripPartition 8 4 (33/16) [some 1]).one_strip_length
            pg)[0]?).map List.length) = some (some 16)
      ∧ stripLenSpec 8 (33/16) = 17 ∧ (16 : ℕ) ≠ 17 := by
  have hsig : (stripPartition 8 4 (33/16 : ℚ) [some 1]).signals_num = 126 := by
    rw [stripPartition_signals_num, List.length_cons, List.length_nil]
  have hS : (stripPartition 8 4 (33/16 : ℚ) [some 1]).no_of_strips = 8 := by
    rw [stripPartition_no_of_strips, hsig]
    unfold pyCeil
    rw [show ((126 : ℕ) : ℚ) / ((8 : ℚ) * (33/16)) = 84/11 by norm_num]
    rw [show ⌈(84/11 : ℚ)⌉ = (8 : ℤ) from by rw [Int.ceil_eq_iff]; constructor <;> norm_num]
    rfl
  have hextra : (stripPartition 8 4 (33/16 : ℚ) [some 1]).extra_strips_needed = 0 := by
    rw [stripPartition_extra, hS]
    norm_num
  have hpyint : pyInt ((8 : ℚ) * (33/16)) = 16 := by
    unfold pyInt
    rw [show ((8 : ℚ) * (33/16)) = 33/2 by norm_num]
    rw [show ⌊(33/2 : ℚ)⌋ = (16 : ℤ) from by rw [Int.floor_eq_iff]; constructor <;> norm_num]
    rfl
  have hlen : (stripPartition 8 4 (33/16 : ℚ) [some 1]).record_padded.length = 126 := by
    rw [stripPartition_record_padded, hextra]
    simp
  have hrl : (stripPartition 8 4 (33/16 : ℚ) [some 1]).record_list[0]?
      = some (((stripPartition 8 4 (33/16 : ℚ) [some 1]).record_padded.drop 0).take 63) := by
    rw [stripPartition_record_list, hS, hextra]
    unfold partition
    simp only [hlen]
    rw [show (8 + 0) / 4 = 2 from rfl]
    rw [List.getElem?_map, show (List.range 2)[0]? = some 0 from by decide, Option.map_some']
    norm_num [pyRoundNat]
  have hpg : (((stripPartition 8 4 (33/16 : ℚ) [some 1]).record_padded.drop 0).take 63).length
      = 63 := by
    rw [List.length_take, List.length_drop, hlen]
    omega
  have hpgne : (((stripPartition 8 4 (33/16 : ℚ) [some 1]).record_padded.drop 0).take 63)
      ≠ [] := by
    apply List.ne_nil_of_length_pos
    omega
  refine ⟨?_, ?_, by decide⟩
  · rw [hrl, Option.map_some']
    rw [stripPartition_one_strip_length]
    unfold rendererStrips
    rw [hpyint]
    rw [List.getElem?_mapIdx,
      chunks_getElem_zero _ 16 (by norm_num) hpgne, Option.map_some']
    rw [if_pos rfl, Option.map_some']
    rw [firstStripData_length]
    rw [List.length_take]
    rw [hpg]
    norm_num
  · unfold stripLenSpec pyCeil
    rw [show ((8 : ℚ) * (33/16)) = 33/2 by norm_num]
    rw [show ⌈(33/2 : ℚ)⌉ = (17 : ℤ) from by rw [Int.ceil_eq_iff]; constructor <;> norm_num]
    rfl

/-- Witness for C1: the default 250 Hz frequency and a one-sample trace. -/
theorem claim_C1_witness :
    (([some 1] : List Sample) ≠ [] ∧ (1 : ℚ) ≤ 8 * 250)
      ∧ ((((stripPartition 8 4 250 [some 1]).record_list).map fun pg =>
          chunks pg (pyInt (stripPartition 8 4 250 [some 1]).one_strip_length)).flatten).flatten
        = List.replicate 125 (none : Sample) ++ [some 1] ++
          List.replicate ((stripPartition 8 4 250 [some 1]).extra_strips_needed *
            pyInt (stripPartition 8 4 250 [some 1]).one_strip_length) (none : Sample) :=
  ⟨⟨by simp, by norm_num⟩, claim_C1_strips_concat 250 [some 1] (by simp) (by norm_num)⟩

/-- Witness for C2 at the default 250 Hz frequency and a one-sample trace. -/
theorem claim_C2_witness :
    (0 : ℚ) < 250
      ∧ ((stripPartition 8 4 250 [some 1]).extra_strips_needed
            = (4 - (stripPartition 8 4 250 [some 1]).no_of_strips % 4) % 4
        ∧ ((stripPartition 8 4 250 [some 1]).no_of_strips +
            (stripPartition 8 4 250 [some 1]).extra_strips_needed) % 4 = 0
        ∧ ∀ m : ℕ,
            ((stripPartition 8 4 250 [some 1]).signals_num : ℚ) = m * (4 * (8 * 250)) →
            (stripPartition 8 4 250 [some 1]).extra_strips_needed = 0) :=
  ⟨by norm_num, claim_C2_pad_strips 250 [some 1] (by norm_num)⟩

/-- Witness for C3 at the default 250 Hz frequency, where L = 2000. -/
theorem claim_C3_witness :
    ((8 : ℚ) * 250 = ((2000 : ℕ) : ℚ) ∧ 1 ≤ 2000)
      ∧ ∀ pg ∈ (stripPartition 8 4 250 [some 1]).record_list,
        (∀ s ∈ rendererStrips (stripPartition 8 4 250 [some 1]).one_strip_length pg,
            s.length = 2000)
          ∧ (∀ (i : ℕ) (c : List Sample), 0 < i →
              (chunks pg 2000)[i]? = some c →
              (rendererStrips (stripPartition 8 4 250 [some 1]).one_strip_length pg)[i]?
                = some (c ++ List.replicate (2000 - c.length) (none : Sample))) :=
  ⟨⟨by norm_num, by norm_num⟩,
    claim_C3_strip_lengths 250 [some 1] 2000 (by norm_num) (by norm_num)⟩

/-- Witness for C4 at the default 250 Hz frequency and a one-sample trace. -/
theorem claim_C4_witness :
    (0 : ℚ) < 250
      ∧ ((stripPartition 8 4 250 [some 1]).record_time
            = pyRound ((([some 1] : List Sample).length : ℚ) / 250)
        ∧ ∀ (t' : ℚ) (spp' : ℕ),
            (stripPartition 8 4 250 [some 1]).record_time
              = (stripPartition t' spp' 250 [some 1]).record_time) :=
  ⟨by norm_num, claim_C4_record_time 8 4 250 [some 1] (by norm_num)⟩

/-- Witness for C5: pdf export of a one-sample in-memory trace. -/
theorem claim_C5_witness :
    ("pdf" ∈ (["pdf", "jpg", "png"] : List String)
        ∧ ∃ L : ℕ, (8 : ℚ) * 250 = (L : ℚ) ∧ 1 ≤ L)
      ∧ ∃ meta files,
          generate_ecg_graph (.list [some 1]) "out/" "graph" "pdf" 250 = .ok meta files
            ∧ meta.signals_num = ([some 1] : List Sample).length + 125
            ∧ ("No. of signals", toString (([some 1] : List Sample).length + 125))
                ∈ meta.display_information :=
  ⟨⟨by decide, ⟨2000, by norm_num, by norm_num⟩⟩,
    claim_C5_signal_count [some 1] "out/" "graph" "pdf" 250 (by decide)
      ⟨2000, by norm_num, by norm_num⟩⟩

/-- Witness for C10: pdf export of a one-sample in-memory trace. -/
theorem claim_C10_witness :
    ("pdf" ∈ (["pdf", "jpg", "png"] : List String)
        ∧ ∃ L : ℕ, (8 : ℚ) * 250 = (L : ℚ) ∧ 1 ≤ L)
      ∧ ∃ meta files,
          generate_ecg_graph (.list [some 1]) "out/" "graph" "pdf" 250 = .ok meta files
            ∧ (∀ kv ∈ meta.output_files, kv.2 = "out/" ++ "graph" ++ "." ++ "pdf")
            ∧ meta.output_files.map Prod.fst
                = (List.range (stripPartition 8 4 250 [some 1]).record_list.length).map
                    (fun i => i + 1)
            ∧ ∀ j : ℕ, ("out/" ++ toString j ++ ".svg") ∉ meta.output_files.map Prod.snd :=
  ⟨⟨by decide, ⟨2000, by norm_num, by norm_num⟩⟩,
    claim_C10_output_files [some 1] "out/" "graph" "pdf" 250 (by decide)
      ⟨2000, by norm_num, by norm_num⟩⟩
